import Mathlib

/-!
Shallow embedding of `fgo_farming_solver/main.py`, the farming-plan solver
behind the fgo-farming-solver API.  Python dictionaries are modelled as
association lists with unique keys (dict comprehensions keep the last value
written for a key, lookups are modelled accordingly); Python numbers are
modelled exactly: `int` as `ℤ` (sample counts, which are non-negative
counts, as `ℕ`), `float` as `ℚ`.  Python string slicing `s[:n]` is modelled
on the character list of the string.
-/

namespace FgoSolver

/-- Lookup in an association list under Python-dict semantics: when several
entries share a key the most recently written one wins. -/
def dictGet {α : Type} (d : List (String × α)) (k : String) : Option α :=
  (d.reverse.find? (fun p => p.1 == k)).map Prod.snd

/-- `d[k] = v` on an association list: overwrite the entry in place when the
key is present (Python dicts keep insertion order), append otherwise. -/
def dictSet {α : Type} (d : List (String × α)) (k : String) (v : α) : List (String × α) :=
  if d.any (fun p => p.1 == k) then
    d.map (fun p => if p.1 == k then (k, v) else p)
  else d ++ [(k, v)]

/-- A row of the `quests` table after `format_rows` (`ap`, `samples_1`,
`samples_2` coerced to integers; other informational columns are not needed
by any claim). -/
structure Quest where
  id : String
  ap : ℤ
  samples_1 : ℕ
  samples_2 : ℕ
deriving DecidableEq

/-- A row of the `drop_rates` table after `format_rows` (`drop_rate_1`,
`drop_rate_2` coerced to floats, modelled as rationals). -/
structure DropRateRow where
  quest_id : String
  item_id : String
  drop_rate_1 : ℚ
  drop_rate_2 : ℚ
deriving DecidableEq

/-- A drop-rate row after `merge_drop_rates`: the two observation waves have
been merged into the single `drop_rate` field. -/
structure MergedRow where
  quest_id : String
  item_id : String
  drop_rate : ℚ
deriving DecidableEq

/-- Python `s[:n]`: the first at most `n` characters of `s`. -/
def strTake (s : String) (n : ℕ) : String :=
  String.mk (s.data.take n)

/-- `get_area` in `filter_quests`: `quest['id'][:2]`. -/
def get_area (q : Quest) : String := strTake q.id 2

/-- `get_section` in `filter_quests`: `quest['id'][0]` (modelled as the
one-character prefix; quest ids in the dataset are non-empty). -/
def get_section (q : Quest) : String := strTake q.id 1

/-- Python `x or y` on an optional float `x`: `y` when `x` is absent or
zero (falsy), `x`'s value otherwise. -/
def pyOrFloat (x : Option ℚ) (y : ℚ) : ℚ :=
  match x with
  | some v => if v = 0 then y else v
  | none => y

/-- The `or`-chain in `filter_quests` resolving the AP coefficient of a
quest: `ap_coefficients.get(id) or .get(area) or .get(section) or 1`. -/
def apCoefficient (coefs : List (String × ℚ)) (q : Quest) : ℚ :=
  pyOrFloat (dictGet coefs q.id)
    (pyOrFloat (dictGet coefs (get_area q))
      (pyOrFloat (dictGet coefs (get_section q)) 1))

/-- Strict first-match coefficient resolution (the spec's reading): the
value of the first level (exact id, area, section) whose key is present,
defaulting to 1.  Named after the spec's wording; to be compared with
`apCoefficient`, which follows the source. -/
def resolveCoef (coefs : List (String × ℚ)) (q : Quest) : ℚ :=
  match dictGet coefs q.id with
  | some v => v
  | none =>
    match dictGet coefs (get_area q) with
    | some v => v
    | none =>
      match dictGet coefs (get_section q) with
      | some v => v
      | none => 1

/-- The membership test of the list comprehension in `filter_quests`. -/
def questMatches (pq : List String) (q : Quest) : Bool :=
  pq.contains q.id || pq.contains (get_area q) || pq.contains (get_section q)

/-- The selection half of `filter_quests`: keep the matching quests, or all
quests when the requested filter list is empty (falsy). -/
def selectQuests (quests : List Quest) (pq : List String) : List Quest :=
  if pq.isEmpty then quests else quests.filter (questMatches pq)

/-- The annotation half of `filter_quests`:
`quest['ap'] = math.floor(quest['ap'] * ap_coefficient)`. -/
def annotateAp (coefs : List (String × ℚ)) (q : Quest) : Quest :=
  { q with ap := ⌊(q.ap : ℚ) * apCoefficient coefs q⌋ }

/-- `filter_quests`: select the requested quests, then rewrite each quest's
`ap` to its effective AP cost. -/
def filter_quests (quests : List Quest) (pq : List String)
    (coefs : List (String × ℚ)) : List Quest :=
  (selectQuests quests pq).map (annotateAp coefs)

/-- `filter_drop_rates`: keep the rows whose quest survived the filter. -/
def filter_drop_rates (rows : List DropRateRow) (quests : List Quest) :
    List DropRateRow :=
  rows.filter (fun r => (quests.map Quest.id).contains r.quest_id)

/-- The `samples_1s` dict of `merge_drop_rates` together with its
`.get(quest_id, 0)` lookup. -/
def questSamples1 (quests : List Quest) (qid : String) : ℕ :=
  (dictGet (quests.map (fun q => (q.id, q.samples_1))) qid).getD 0

/-- The `samples_2s` dict of `merge_drop_rates` together with its
`.get(quest_id, 0)` lookup. -/
def questSamples2 (quests : List Quest) (qid : String) : ℕ :=
  (dictGet (quests.map (fun q => (q.id, q.samples_2))) qid).getD 0

/-- `merge_drop_rates`: under method `"add"` the sample-weighted average of
the two waves (0 when both sample counts are 0, matching the falsy test
`if samples_1 or samples_2`); under any other method the primary wave's
rate, falling back to the secondary wave when the primary is 0 (Python
`drop_rate_primary or drop_rate_secondary`).  `row.pop('drop_rate_' + primary, 0)`
yields 0 for a method other than `"1"`/`"2"` (no such key). -/
def merge_drop_rates (rows : List DropRateRow) (quests : List Quest)
    (method : String) : List MergedRow :=
  if method = "add" then
    rows.map (fun row =>
      let s1 := questSamples1 quests row.quest_id
      let s2 := questSamples2 quests row.quest_id
      { quest_id := row.quest_id, item_id := row.item_id,
        drop_rate :=
          if s1 ≠ 0 ∨ s2 ≠ 0 then
            (row.drop_rate_1 * s1 + row.drop_rate_2 * s2) / ((s1 : ℚ) + (s2 : ℚ))
          else 0 })
  else
    rows.map (fun row =>
      let p : ℚ :=
        if method = "1" then row.drop_rate_1
        else if method = "2" then row.drop_rate_2
        else 0
      let s : ℚ := if method = "2" then row.drop_rate_1 else row.drop_rate_2
      { quest_id := row.quest_id, item_id := row.item_id,
        drop_rate := if p = 0 then s else p })

/-! ## Model building and solving (`solve`) -/

/-- The coefficient dict of one item's `LpAffineExpression` in `solve`:
`{quest_lap_variables[row['quest_id']]: row['drop_rate'] for row in group}`
(a dict comprehension, so a later row for the same quest overwrites an
earlier one). -/
def buildCoeffs (rows : List MergedRow) : List (String × ℚ) :=
  rows.foldl (fun d r => dictSet d r.quest_id r.drop_rate) []

/-- One `LpConstraint(expression, LpConstraintGE, rhs)` of the model. -/
structure LpConstraintGE where
  item : String
  coeffs : List (String × ℚ)
  rhs : ℤ
deriving DecidableEq

/-- The constraints added by `solve`: one per item that has at least one
merged drop-rate row (the `groupby` over `drop_rates`) *and* appears in the
requested target map.  `groupby(sorted(...))` visits each distinct item id
once; only membership in the produced list matters here, so the distinct
item ids are taken via `dedup`. -/
def buildConstraints (param_items : List (String × ℤ)) (rows : List MergedRow) :
    List LpConstraintGE :=
  ((rows.map MergedRow.item_id).dedup).filterMap (fun i =>
    match dictGet param_items i with
    | some c =>
        some { item := i,
               coeffs := buildCoeffs (rows.filter (fun r => r.item_id == i)),
               rhs := c }
    | none => none)

/-- Value of an `LpAffineExpression` at a lap assignment
(`pulp.value`): the sum of coefficient times variable value. -/
def evalCoeffs (coeffs : List (String × ℚ)) (laps : String → ℚ) : ℚ :=
  coeffs.foldl (fun acc p => acc + p.2 * laps p.1) 0

/-- A `≥` constraint that no non-negative lap assignment satisfies. -/
def infeasibleGE (con : LpConstraintGE) : Prop :=
  ∀ laps : String → ℚ, (∀ s, 0 ≤ laps s) → ¬ ((con.rhs : ℚ) ≤ evalCoeffs con.coeffs laps)

/-- `pulp.value` of the item expression for item `i`: the merged rates of
`i`'s rows applied to the solved laps. -/
def itemExprValue (rows : List MergedRow) (lapF : String → ℚ) (i : String) : ℚ :=
  evalCoeffs (buildCoeffs (rows.filter (fun r => r.item_id == i))) lapF

/-- `quest_laps` as returned by `solve`: `format_value` keeps the variables
whose solved value is `> 0`.  `lapF` is the assignment produced by the
external LP solver. -/
def solveQuestLaps (quest_ids : List String) (lapF : String → ℚ) :
    List (String × ℚ) :=
  quest_ids.filterMap (fun q => if 0 < lapF q then some (q, lapF q) else none)

/-- `item_counts` as returned by `solve`: `format_value` keeps the item
expressions whose value at the solved laps is `> 0`. -/
def solveItemCounts (rows : List MergedRow) (lapF : String → ℚ) :
    List (String × ℚ) :=
  ((rows.map MergedRow.item_id).dedup).filterMap (fun i =>
    let v := itemExprValue rows lapF i
    if 0 < v then some (i, v) else none)

/-! ## Result aggregation (`format_result`) -/

/-- Python `round` on an exact rational: round half to even. -/
def pyRound (x : ℚ) : ℤ :=
  if x - ⌊x⌋ < 1 / 2 then ⌊x⌋
  else if 1 / 2 < x - ⌊x⌋ then ⌊x⌋ + 1
  else if ⌊x⌋ % 2 = 0 then ⌊x⌋ else ⌊x⌋ + 1

/-- Python `int` on an exact rational: truncate toward zero. -/
def pyTrunc (x : ℚ) : ℤ := if 0 ≤ x then ⌊x⌋ else ⌈x⌉

/-- `quest_to_info[qid]`, the dict keyed by quest id built at the top of
`format_result`.  In the pipeline every reported quest id is a key of this
dict, so the default is never reached. -/
def questInfo (quests : List Quest) (qid : String) : Quest :=
  (dictGet (quests.map (fun q => (q.id, q))) qid).getD
    { id := qid, ap := 0, samples_1 := 0, samples_2 := 0 }

/-- One entry of `result['quests']`: `{'id': ..., 'lap': math.ceil(lap)}`
merged with the quest's own row (whose informational columns beyond those
modelled in `Quest` are not needed by any claim). -/
structure PlanQuest where
  id : String
  lap : ℤ
  ap : ℤ
  samples_1 : ℕ
  samples_2 : ℕ
deriving DecidableEq

/-- One entry of `result['items']`: `{'id': ..., 'count': round(count)}`
merged with the item's informational row (not modelled). -/
structure PlanItem where
  id : String
  count : ℤ
deriving DecidableEq

/-- The aggregated plan built by `format_result` (the `params` echo, which
no claim concerns, is not modelled). -/
structure PlanResult where
  quests : List PlanQuest
  items : List PlanItem
  drop_rates : List MergedRow
  total_lap : ℤ
  total_ap : ℤ
deriving DecidableEq

/-- `format_result`: quests report `math.ceil(lap)`; items report
`round(count)` of the solver-level expected count; `total_lap` sums the
ceiled laps; `total_ap` sums `int(ap * lap)` over the *raw* lap values. -/
def format_result (item_counts quest_laps : List (String × ℚ))
    (quests : List Quest) (rows : List MergedRow) : PlanResult :=
  { quests := quest_laps.map (fun p =>
      let info := questInfo quests p.1
      { id := p.1, lap := ⌈p.2⌉, ap := info.ap,
        samples_1 := info.samples_1, samples_2 := info.samples_2 }),
    items := item_counts.map (fun p => { id := p.1, count := pyRound p.2 }),
    drop_rates := rows.filter (fun r => (quest_laps.map Prod.fst).contains r.quest_id),
    total_lap := (quest_laps.map (fun p => ⌈p.2⌉)).sum,
    total_ap := (quest_laps.map (fun p =>
      pyTrunc (((questInfo quests p.1).ap : ℚ) * p.2))).sum }

/-! ## Result projection (`filter_result`) -/

/-- A Python value as it occurs in the aggregated result object. -/
inductive Py where
  | int (n : ℤ) : Py
  | str (s : String) : Py
  | list (xs : List Py) : Py
  | dict (kvs : List (String × Py)) : Py

/-- Python `.items()`: succeeds on a dict, raises `AttributeError` on any
other value (in particular on a list). -/
def pyItems : Py → Except String (List (String × Py))
  | Py.dict kvs => Except.ok kvs
  | _ => Except.error "AttributeError: object has no attribute items"

/-- `filter_result`: when `fields` is non-empty, first rewrite
`result['quests']` (resp. `result['items']`) by the dict comprehension
`{k: v for k, v in result[...].items() if k in ..._fields}` whenever the
corresponding allow-list is non-empty, then keep only the top-level keys
listed in `fields`.  The `.items()` calls are fallible, exactly as in
Python. -/
def filter_result (result : List (String × Py)) (fields quest_fields item_fields : List String) :
    Except String (List (String × Py)) :=
  if fields.isEmpty then Except.ok result
  else do
    let r1 ←
      if quest_fields.isEmpty then pure result
      else
        match dictGet result "quests" with
        | none => Except.error "KeyError: quests"
        | some v => do
          let kvs ← pyItems v
          pure (dictSet result "quests"
            (Py.dict (kvs.filter (fun p => quest_fields.contains p.1))))
    let r2 ←
      if item_fields.isEmpty then pure r1
      else
        match dictGet r1 "items" with
        | none => Except.error "KeyError: items"
        | some v => do
          let kvs ← pyItems v
          pure (dictSet r1 "items"
            (Py.dict (kvs.filter (fun p => item_fields.contains p.1))))
    pure (r2.filter (fun p => fields.contains p.1))

/-! ## Aggregation theorems (C2, C9) -/

theorem filterMap_if_eq_map_filter {α β : Type} (l : List α) (p : α → Prop)
    [DecidablePred p] (g : α → β) :
    l.filterMap (fun a => if p a then some (g a) else none) =
      (l.filter (fun a => decide (p a))).map g := by
  induction l with
  | nil => rfl
  | cons a t ih =>
    by_cases h : p a
    · simp [List.filterMap_cons, List.filter_cons, h, ih]
    · simp [List.filterMap_cons, List.filter_cons, h, ih]

theorem solveQuestLaps_mem {quest_ids : List String} {lapF : String → ℚ}
    {p : String × ℚ} (hp : p ∈ solveQuestLaps quest_ids lapF) :
    p.1 ∈ quest_ids ∧ 0 < lapF p.1 ∧ p.2 = lapF p.1 := by
  obtain ⟨q, hq, he⟩ := List.mem_filterMap.mp hp
  by_cases h : 0 < lapF q
  · rw [if_pos h] at he
    injection he with he
    rw [← he]
    exact ⟨hq, h, rfl⟩
  · rw [if_neg h] at he
    cases he

theorem solveItemCounts_mem {rows : List MergedRow} {lapF : String → ℚ}
    {p : String × ℚ} (hp : p ∈ solveItemCounts rows lapF) :
    0 < p.2 ∧ p.2 = itemExprValue rows lapF p.1 := by
  obtain ⟨i, _, he⟩ := List.mem_filterMap.mp hp
  simp only at he
  by_cases h : 0 < itemExprValue rows lapF i
  · rw [if_pos h] at he
    injection he with he
    rw [← he]
    exact ⟨h, rfl⟩
  · rw [if_neg h] at he
    cases he

theorem length_le_sum_of_one_le (l : List ℤ) (h : ∀ x ∈ l, 1 ≤ x) :
    (l.length : ℤ) ≤ l.sum := by
  induction l with
  | nil => simp
  | cons x t ih =>
    simp only [List.length_cons, List.sum_cons]
    push_cast
    have ht := ih (fun y hy => h y (List.mem_cons_of_mem _ hy))
    have hx := h x (List.mem_cons_self x t)
    linarith

/-- C2 counterexample: one quest `"001"` with effective AP 10 and merged
rate 1 for item `"X"`, solved lap value `7/5`.  The aggregated
`total_ap` is `int(10 * 7/5) = 14`, while the claim's formula
`ap * ceil(lap)` gives `10 * 2 = 20`; likewise the claim computes the item
yield at the ceiled laps while the code uses the raw laps. -/
theorem claim_C2_counterexample :
    (format_result (solveItemCounts [⟨"001", "X", 1⟩] (fun _ => 7 / 5))
        (solveQuestLaps ["001"] (fun _ => 7 / 5)) [⟨"001", 10, 0, 0⟩]
        [⟨"001", "X", 1⟩]).total_ap = 14 ∧
    ((solveQuestLaps ["001"] (fun _ => (7 : ℚ) / 5)).map
        (fun p => (questInfo [⟨"001", 10, 0, 0⟩] p.1).ap * ⌈p.2⌉)).sum = 20 := by
  have hql : solveQuestLaps ["001"] (fun _ => (7 : ℚ) / 5) = [("001", 7 / 5)] := by
    rw [solveQuestLaps]
    norm_num [List.filterMap_cons]
  refine ⟨?_, ?_⟩
  · have h : (⌊(10 : ℚ) * (7 / 5)⌋ : ℤ) = 14 := by
      rw [Int.floor_eq_iff]
      norm_num
    rw [format_result, hql]
    norm_num [questInfo, dictGet, pyTrunc, h]
  · have h : (⌈(7 : ℚ) / 5⌉ : ℤ) = 2 := by
      rw [Int.ceil_eq_iff]
      norm_num
    rw [hql]
    norm_num [questInfo, dictGet, h]

/-- C2 (amended): for every solved lap assignment the plan reports, per
retained quest, the lap count `ceil(lap)`; per retained item the expected
yield `Σ merged_rate(q,i) * lap(q)` at the *raw* solved laps, rounded half
to even; `total_lap = Σ ceil(lap(q))`; and
`total_ap = Σ int(effective_ap(q) * lap(q))` at the raw laps (truncated,
not ceiled). -/
theorem claim_C2_amended (quest_ids : List String) (lapF : String → ℚ)
    (rows : List MergedRow) (quests : List Quest) :
    ((format_result (solveItemCounts rows lapF) (solveQuestLaps quest_ids lapF)
        quests rows).quests.map (fun pq_ => (pq_.id, pq_.lap)) =
      (quest_ids.filter (fun q => decide (0 < lapF q))).map
        (fun q => (q, ⌈lapF q⌉))) ∧
    ((format_result (solveItemCounts rows lapF) (solveQuestLaps quest_ids lapF)
        quests rows).items =
      (((rows.map MergedRow.item_id).dedup).filter
          (fun i => decide (0 < itemExprValue rows lapF i))).map
        (fun i => { id := i, count := pyRound (itemExprValue rows lapF i) })) ∧
    ((format_result (solveItemCounts rows lapF) (solveQuestLaps quest_ids lapF)
        quests rows).total_lap =
      ((quest_ids.filter (fun q => decide (0 < lapF q))).map
        (fun q => ⌈lapF q⌉)).sum) ∧
    ((format_result (solveItemCounts rows lapF) (solveQuestLaps quest_ids lapF)
        quests rows).total_ap =
      ((quest_ids.filter (fun q => decide (0 < lapF q))).map
        (fun q => pyTrunc (((questInfo quests q).ap : ℚ) * lapF q))).sum) := by
  have hql : solveQuestLaps quest_ids lapF =
      (quest_ids.filter (fun q => decide (0 < lapF q))).map (fun q => (q, lapF q)) :=
    filterMap_if_eq_map_filter quest_ids (fun q => 0 < lapF q) (fun q => (q, lapF q))
  have hic : solveItemCounts rows lapF =
      (((rows.map MergedRow.item_id).dedup).filter
          (fun i => decide (0 < itemExprValue rows lapF i))).map
        (fun i => (i, itemExprValue rows lapF i)) :=
    filterMap_if_eq_map_filter ((rows.map MergedRow.item_id).dedup)
      (fun i => 0 < itemExprValue rows lapF i) (fun i => (i, itemExprValue rows lapF i))
  refine ⟨?_, ?_, ?_, ?_⟩ <;>
    simp only [format_result, hql, hic, List.map_map] <;> rfl

/-- C9: the aggregated plan lists only quests whose solved lap value is
positive (so every reported lap count is at least 1) and only items whose
solver-level expected count is positive; `total_lap` is at least the number
of quests in the plan. -/
theorem claim_C9 (quest_ids : List String) (lapF : String → ℚ)
    (rows : List MergedRow) (quests : List Quest) (r : PlanResult)
    (hr : r = format_result (solveItemCounts rows lapF)
      (solveQuestLaps quest_ids lapF) quests rows) :
    (∀ pq_ ∈ r.quests, 0 < lapF pq_.id ∧ 1 ≤ pq_.lap) ∧
    (∀ it ∈ r.items, ∃ v, 0 < v ∧ it.count = pyRound v ∧
      v = itemExprValue rows lapF it.id) ∧
    (r.quests.length : ℤ) ≤ r.total_lap := by
  subst hr
  refine ⟨?_, ?_, ?_⟩
  · intro pq_ hpq
    rw [format_result] at hpq
    obtain ⟨p, hp, he⟩ := List.mem_map.mp hpq
    obtain ⟨_, hpos, hval⟩ := solveQuestLaps_mem hp
    have hid : pq_.id = p.1 := by rw [← he]
    have hlap : pq_.lap = ⌈p.2⌉ := by rw [← he]
    constructor
    · rw [hid]
      exact hpos
    · rw [hlap]
      have h2 : 0 < ⌈p.2⌉ := Int.ceil_pos.mpr (by rw [hval]; exact hpos)
      omega
  · intro it hit
    rw [format_result] at hit
    obtain ⟨p, hp, he⟩ := List.mem_map.mp hit
    obtain ⟨hpos, hval⟩ := solveItemCounts_mem hp
    refine ⟨p.2, hpos, ?_, ?_⟩
    · rw [← he]
    · rw [hval, ← he]
  · rw [format_result]
    simp only [List.length_map]
    have : ((solveQuestLaps quest_ids lapF).map (fun p => ⌈p.2⌉)).length =
        (solveQuestLaps quest_ids lapF).length := List.length_map _ _
    rw [← this]
    apply length_le_sum_of_one_le
    intro x hx
    obtain ⟨p, hp, he⟩ := List.mem_map.mp hx
    obtain ⟨_, hpos, hval⟩ := solveQuestLaps_mem hp
    rw [← he]
    have : 0 < ⌈p.2⌉ := Int.ceil_pos.mpr (by rw [hval]; exact hpos)
    omega

/-- Witness for C9 at a concrete input: quest `"001"`, solved laps
constantly 2, one merged row for `"X"` with rate `1/2`; the reported quest
has positive solved lap and a lap count of at least 1. -/
theorem claim_C9_witness :
    (0 : ℚ) < (fun _ => (2 : ℚ)) "001" ∧
      (1 : ℤ) ≤ (⟨"001", 2, 10, 0, 0⟩ : PlanQuest).lap :=
  (claim_C9 ["001"] (fun _ => 2) [⟨"001", "X", 1 / 2⟩] [⟨"001", 10, 0, 0⟩]
      (format_result (solveItemCounts [⟨"001", "X", 1 / 2⟩] (fun _ => 2))
        (solveQuestLaps ["001"] (fun _ => 2)) [⟨"001", 10, 0, 0⟩]
        [⟨"001", "X", 1 / 2⟩]) rfl).1
    ⟨"001", 2, 10, 0, 0⟩
    (by
      have hql : solveQuestLaps ["001"] (fun _ => (2 : ℚ)) = [("001", 2)] := by
        rw [solveQuestLaps]
        norm_num [List.filterMap_cons]
      rw [format_result, hql]
      norm_num [questInfo, dictGet, Int.ceil_ofNat])

/-! ## Parameter normalization (`decode_params`, `validate_params`,
`format_params`)

In the handler, `decode_params` runs *outside* the `try` block: a
`ValueError` raised there (a malformed `key:value` token fed to `dict`)
escapes as an unhandled exception, while `validate_params` and
`format_params` raise `ParamError`, which the handler converts to a 400
response.  The two failure kinds are therefore distinguished below. -/

/-- A failure of the normalization pipeline: an exception escaping the
handler's `try` block (`uncaught`) or a `ParamError` caught by it
(`invalidParam`, carrying the `message`, `name` and `reason` fields of its
body). -/
inductive NormError where
  | uncaught (msg : String)
  | invalidParam (message : String) (name : String) (reason : String)
deriving DecidableEq

/-- The raw query-string parameters relevant to `decode_params`
(`params.get(key)`: `none` for an absent key). -/
structure RawQuery where
  fields : Option String
  quest_fields : Option String
  item_fields : Option String
  objective : Option String
  items : Option String
  quests : Option String
  ap_coefficients : Option String
  drop_merge_method : Option String

/-- Helper of `pySplit`: walk the characters, `acc` holding the current
field reversed. -/
def pySplitAux (c : Char) : List Char → List Char → List String
  | [], acc => [String.mk acc.reverse]
  | x :: xs, acc =>
    if x = c then String.mk acc.reverse :: pySplitAux c xs []
    else pySplitAux c xs (x :: acc)

/-- Python `s.split(c)` for a one-character separator (both separators used
by `decode_params` are one character): `"".split(c) = ['']`,
`"a:".split(':') = ['a', '']`, and so on. -/
def pySplit (s : String) (c : Char) : List String :=
  pySplitAux c s.data []

/-- Decoding of a list-valued parameter: the default `[]` when absent or
empty (falsy), otherwise `value.split(',')`. -/
def decodeList (v : Option String) : List String :=
  match v with
  | none => []
  | some s => if s = "" then [] else pySplit s ','

/-- Decoding of a string-valued parameter: the default when absent or empty
(falsy), otherwise the value itself. -/
def decodeStr (v : Option String) (dflt : String) : String :=
  match v with
  | none => dflt
  | some s => if s = "" then dflt else s

/-- One token of a dict-valued parameter: `item.split(':')` must produce
exactly a key and a value, otherwise `dict(...)` raises `ValueError`. -/
def splitPair (tok : String) : Except String (String × String) :=
  match pySplit tok ':' with
  | [k, v] => Except.ok (k, v)
  | _ => Except.error "ValueError: dictionary update sequence element is not a pair"

/-- The traversal `dict(item.split(':') for item in value.split(','))`:
process the tokens in order, stopping at the first malformed one; a
repeated key keeps its last value. -/
def foldPairs (toks : List String) (d : List (String × String)) :
    Except String (List (String × String)) :=
  match toks with
  | [] => Except.ok d
  | tok :: rest =>
    match splitPair tok with
    | Except.error m => Except.error m
    | Except.ok p => foldPairs rest (dictSet d p.1 p.2)

/-- Decoding of a dict-valued parameter: the default `{}` when absent or
empty (falsy), otherwise the `dict(...)` construction above. -/
def decodePairs (v : Option String) : Except String (List (String × String)) :=
  match v with
  | none => Except.ok []
  | some s => if s = "" then Except.ok [] else foldPairs (pySplit s ',') []

/-- The output of `decode_params` (all values still strings). -/
structure DecodedParams where
  fields : List String
  quest_fields : List String
  item_fields : List String
  objective : String
  items : List (String × String)
  quests : List String
  ap_coefficients : List (String × String)
  drop_merge_method : String
deriving DecidableEq

/-- `decode_params` with the defaults used by the handler.  The keyword
arguments are processed in their declaration order, so a malformed `items`
value raises before `ap_coefficients` is examined. -/
def decode_params (q : RawQuery) : Except NormError DecodedParams := do
  let items ← (decodePairs q.items).mapError NormError.uncaught
  let coefs ← (decodePairs q.ap_coefficients).mapError NormError.uncaught
  pure { fields := decodeList q.fields,
         quest_fields := decodeList q.quest_fields,
         item_fields := decodeList q.item_fields,
         objective := decodeStr q.objective "ap",
         items := items,
         quests := decodeList q.quests,
         ap_coefficients := coefs,
         drop_merge_method := decodeStr q.drop_merge_method "add" }

/-- `validate_params(params, objective=('ap', 'lap'), drop_merge_method=('add', '1', '2'))`:
the keys are checked in keyword order and the first violation raises
`ParamError` with the joined choices as the reason. -/
def validate_params (p : DecodedParams) : Except NormError Unit :=
  if p.objective = "ap" ∨ p.objective = "lap" then
    if p.drop_merge_method = "add" ∨ p.drop_merge_method = "1" ∨ p.drop_merge_method = "2" then
      Except.ok ()
    else
      Except.error (NormError.invalidParam "drop_merge_method is invalid"
        "drop_merge_method" "must be add or 1 or 2")
  else
    Except.error (NormError.invalidParam "objective is invalid" "objective"
      "must be ap or lap")

/-- The dict comprehension of `format_params` for one key: apply the
formatter to every value in order, raising `ParamError` at the first value
it rejects (Python `int`/`float` raising `ValueError`). -/
def formatVals {α : Type} (d : List (String × String)) (f : String → Option α)
    (key : String) : Except NormError (List (String × α)) :=
  match d with
  | [] => Except.ok []
  | kv :: rest =>
    match f kv.2 with
    | none =>
        Except.error (NormError.invalidParam ("Numbers of " ++ key ++ " is invalid")
          key "must be like string:number,string:number,...")
    | some x =>
      match formatVals rest f key with
      | Except.error e => Except.error e
      | Except.ok r => Except.ok ((kv.1, x) :: r)

/-- The fully normalized parameters (`items` as integers, `ap_coefficients`
as floats). -/
structure Params where
  fields : List String
  quest_fields : List String
  item_fields : List String
  objective : String
  items : List (String × ℤ)
  quests : List String
  ap_coefficients : List (String × ℚ)
  drop_merge_method : String
deriving DecidableEq

/-- `format_params(params, items=int, ap_coefficients=float)`, generic in
the two numeric parsers exactly as the source is generic in its
`**formatters` (keyword order: `items` first). -/
def format_params (p : DecodedParams) (intF : String → Option ℤ)
    (floatF : String → Option ℚ) : Except NormError Params := do
  let items ← formatVals p.items intF "items"
  let coefs ← formatVals p.ap_coefficients floatF "ap_coefficients"
  pure { fields := p.fields, quest_fields := p.quest_fields,
         item_fields := p.item_fields, objective := p.objective,
         items := items, quests := p.quests, ap_coefficients := coefs,
         drop_merge_method := p.drop_merge_method }

/-- Lines 40-53 of the handler: decode, validate, format. -/
def normalizeParams (q : RawQuery) (intF : String → Option ℤ)
    (floatF : String → Option ℚ) : Except NormError Params := do
  let p ← decode_params q
  let _ ← validate_params p
  format_params p intF floatF

/-- Whether one token of a dict-valued parameter would make `dict(...)`
raise (`split(':')` not yielding exactly two parts). -/
def tokenMalformed (tok : String) : Bool :=
  !((pySplit tok ':').length == 2)

/-- Whether a raw dict-valued parameter makes `decode_params` raise an
uncaught `ValueError`. -/
def hasMalformedPairs (v : Option String) : Bool :=
  match v with
  | none => false
  | some s => if s = "" then false else (pySplit s ',').any tokenMalformed

/-- The decoded pairs of a well-formed dict-valued parameter. -/
def pairsOf (v : Option String) : List (String × String) :=
  ((decodePairs v).toOption).getD []

/-- The normalization outcome is an exception escaping the `try` block. -/
def isUncaughtFailure {α : Type} : Except NormError α → Bool
  | Except.error (NormError.uncaught _) => true
  | _ => false

/-- The normalization outcome is a `ParamError` (a 400 response). -/
def isParamFailure {α : Type} : Except NormError α → Bool
  | Except.error (NormError.invalidParam _ _ _) => true
  | _ => false

/-- The normalization succeeded. -/
def isOkResult {α : Type} : Except NormError α → Bool
  | Except.ok _ => true
  | _ => false

/-- Whether a decoded enumerated field is outside its enumeration. -/
def badEnum (q : RawQuery) : Bool :=
  !(decodeStr q.objective "ap" == "ap" || decodeStr q.objective "ap" == "lap") ||
  !(decodeStr q.drop_merge_method "add" == "add" ||
    decodeStr q.drop_merge_method "add" == "1" ||
    decodeStr q.drop_merge_method "add" == "2")

/-- Whether some decoded `items` count or `ap_coefficients` value is
rejected by the corresponding numeric parser. -/
def badNumbers (q : RawQuery) (intF : String → Option ℤ)
    (floatF : String → Option ℚ) : Bool :=
  (pairsOf q.items).any (fun kv => (intF kv.2).isNone) ||
  (pairsOf q.ap_coefficients).any (fun kv => (floatF kv.2).isNone)

/-! ## Theorems -/

/-! ### Dictionary lemmas -/

theorem dictGet_mem {α : Type} {d : List (String × α)} {k : String} {v : α}
    (h : dictGet d k = some v) : (k, v) ∈ d := by
  unfold dictGet at h
  cases hf : d.reverse.find? (fun p => p.1 == k) with
  | none => rw [hf] at h; simp at h
  | some p =>
    rw [hf] at h
    simp only [Option.map_some', Option.some_inj] at h
    have hmem : p ∈ d.reverse := List.mem_of_find?_eq_some hf
    have hpk := List.find?_some hf
    have hp : p = (k, v) := by
      obtain ⟨p1, p2⟩ := p
      simp only [beq_iff_eq] at hpk
      simp_all
    rw [hp] at hmem
    exact List.mem_reverse.mp hmem

theorem dictGet_eq_none {α : Type} {d : List (String × α)} {k : String}
    (h : k ∉ d.map Prod.fst) : dictGet d k = none := by
  unfold dictGet
  rw [List.find?_eq_none.mpr]
  · rfl
  · intro p hp
    simp only [beq_iff_eq]
    intro hk
    exact h (List.mem_map.mpr ⟨p, List.mem_reverse.mp hp, hk⟩)

theorem dictGet_cons {α : Type} (a : String × α) (d : List (String × α)) (k : String) :
    dictGet (a :: d) k =
      ((dictGet d k).or (if a.1 = k then some a.2 else none)) := by
  unfold dictGet
  rw [List.reverse_cons, List.find?_append]
  cases d.reverse.find? (fun p => p.1 == k) with
  | none =>
    simp only [Option.map_none', Option.none_or]
    by_cases h : a.1 = k
    · have hb : (a.1 == k) = true := beq_iff_eq.mpr h
      simp [List.find?, hb, h]
    · have hb : (a.1 == k) = false := beq_eq_false_iff_ne.mpr h
      simp [List.find?, hb, h]
  | some p => simp

/-- Under unique keys, filtering out the zero-valued entries turns a
lookup that found 0 into a miss and leaves every other lookup alone. -/
theorem dictGet_filter_ne_zero (coefs : List (String × ℚ)) (k : String)
    (hnd : (coefs.map Prod.fst).Nodup) :
    dictGet (coefs.filter (fun kv => decide (kv.2 ≠ 0))) k =
      (dictGet coefs k).bind (fun v => if v = 0 then none else some v) := by
  induction coefs with
  | nil => rfl
  | cons a d ih =>
    obtain ⟨ha, hd⟩ := List.nodup_cons.mp hnd
    have hka : dictGet d a.1 = none := dictGet_eq_none ha
    by_cases hk : a.1 = k
    · subst hk
      have hkaf : dictGet (d.filter (fun kv => decide (kv.2 ≠ 0))) a.1 = none := by
        apply dictGet_eq_none
        intro hmem
        obtain ⟨p, hp, hp1⟩ := List.mem_map.mp hmem
        exact ha (List.mem_map.mpr ⟨p, List.mem_filter.mp hp |>.1, hp1⟩)
      by_cases hz : a.2 = 0
      · rw [List.filter_cons_of_neg (by simp [hz]), dictGet_cons, hka, hkaf]
        simp [hz]
      · rw [List.filter_cons_of_pos (by simp [hz]), dictGet_cons, dictGet_cons, hka, hkaf]
        simp [hz]
    · by_cases hz : a.2 = 0
      · rw [List.filter_cons_of_neg (by simp [hz]), dictGet_cons, ih hd]
        simp [hk]
      · rw [List.filter_cons_of_pos (by simp [hz]), dictGet_cons, dictGet_cons, ih hd]
        simp [hk]

/-! ### Coefficient-resolution lemmas -/

theorem pyOrFloat_ne_zero {x : Option ℚ} {y : ℚ} (hy : y ≠ 0) :
    pyOrFloat x y ≠ 0 := by
  unfold pyOrFloat
  cases x with
  | none => exact hy
  | some v =>
    by_cases hv : v = 0
    · simp [hv, hy]
    · simp only [if_neg hv]
      exact hv

/-- When every supplied multiplier is positive the source's falsy-skipping
`or`-chain agrees with strict first-match resolution. -/
theorem apCoefficient_eq_resolveCoef (coefs : List (String × ℚ)) (q : Quest)
    (hpos : ∀ kv ∈ coefs, 0 < kv.2) :
    apCoefficient coefs q = resolveCoef coefs q := by
  unfold apCoefficient resolveCoef
  cases h1 : dictGet coefs q.id with
  | some v =>
    have hv : v ≠ 0 := (hpos _ (dictGet_mem h1)).ne'
    simp [pyOrFloat, hv]
  | none =>
    cases h2 : dictGet coefs (get_area q) with
    | some v =>
      have hv : v ≠ 0 := (hpos _ (dictGet_mem h2)).ne'
      simp [pyOrFloat, hv]
    | none =>
      cases h3 : dictGet coefs (get_section q) with
      | some v =>
        have hv : v ≠ 0 := (hpos _ (dictGet_mem h3)).ne'
        simp [pyOrFloat, hv]
      | none => simp [pyOrFloat]

theorem floor_mul_le_self {a : ℤ} {c : ℚ} (ha : 0 ≤ a) (hc : c ≤ 1) :
    ⌊(a : ℚ) * c⌋ ≤ a := by
  calc ⌊(a : ℚ) * c⌋ ≤ ⌊(a : ℚ)⌋ := by
        apply Int.floor_le_floor
        exact mul_le_of_le_one_right (by exact_mod_cast ha) hc
    _ = a := Int.floor_intCast a

/-- C5: for a coefficient map with positive multipliers, the effective AP
written by `filter_quests` is `floor(base_ap * c)` where `c` is resolved by
first match on exact id, then area, then section, then 1; for `c < 1` the
effective AP never exceeds the base AP. -/
theorem claim_C5 (quests : List Quest) (pq : List String)
    (coefs : List (String × ℚ)) (q : Quest)
    (hpos : ∀ kv ∈ coefs, 0 < kv.2) (hq : q ∈ selectQuests quests pq) :
    annotateAp coefs q ∈ filter_quests quests pq coefs ∧
    (annotateAp coefs q).ap = ⌊(q.ap : ℚ) * resolveCoef coefs q⌋ ∧
    (resolveCoef coefs q < 1 → 0 ≤ q.ap → (annotateAp coefs q).ap ≤ q.ap) := by
  refine ⟨List.mem_map.mpr ⟨q, hq, rfl⟩, ?_, ?_⟩
  · unfold annotateAp
    rw [apCoefficient_eq_resolveCoef coefs q hpos]
  · intro hc ha
    unfold annotateAp
    rw [apCoefficient_eq_resolveCoef coefs q hpos]
    exact floor_mul_le_self ha hc.le

/-- Witness for C5 at a concrete input: base AP 10, section-level
coefficient `1/2`, effective AP `⌊10 * (1/2)⌋ = 5`. -/
theorem claim_C5_witness :
    (annotateAp [("0", 1 / 2)] ⟨"001", 10, 0, 0⟩).ap =
      ⌊((10 : ℤ) : ℚ) * resolveCoef [("0", 1 / 2)] ⟨"001", 10, 0, 0⟩⌋ :=
  (claim_C5 [⟨"001", 10, 0, 0⟩] [] [("0", 1 / 2)] ⟨"001", 10, 0, 0⟩
    (by norm_num) (by decide)).2.1

/-- C8: with a non-empty filter the quest selector keeps exactly the quests
whose id, area or section equals some token (the empty filter keeps all
quests); a one-character token selects every quest whose id starts with
that character; selection determines which quests `filter_quests`
returns. -/
theorem claim_C8 (quests : List Quest) (pq : List String)
    (coefs : List (String × ℚ)) :
    (pq = [] → selectQuests quests pq = quests) ∧
    (∀ q, q ∈ selectQuests quests pq ↔
      q ∈ quests ∧ (pq = [] ∨ q.id ∈ pq ∨ get_area q ∈ pq ∨ get_section q ∈ pq)) ∧
    (∀ t q, t ∈ pq → q ∈ quests →
      (∃ c rest, q.id.data = c :: rest ∧ t = String.mk [c]) →
      q ∈ selectQuests quests pq) ∧
    (filter_quests quests pq coefs).map Quest.id = (selectQuests quests pq).map Quest.id := by
  have hsec : ∀ (q : Quest) (c : Char) (rest : List Char),
      q.id.data = c :: rest → get_section q = String.mk [c] := by
    intro q c rest h
    unfold get_section strTake
    rw [h]
    rfl
  refine ⟨?_, ?_, ?_, ?_⟩
  · intro h
    simp [selectQuests, h]
  · intro q
    by_cases hpq : pq = []
    · simp [selectQuests, hpq]
    · rw [selectQuests, if_neg (by simpa using hpq)]
      simp only [List.mem_filter, questMatches, hpq, false_or, Bool.or_eq_true,
        List.elem_iff]
      tauto
  · intro t q ht hq hc
    obtain ⟨c, rest, hdata, hts⟩ := hc
    have hsq : get_section q ∈ pq := by
      rw [hsec q c rest hdata, ← hts]
      exact ht
    by_cases hpq : pq = []
    · simp [selectQuests, hpq, hq]
    · rw [selectQuests, if_neg (by simpa using hpq)]
      refine List.mem_filter.mpr ⟨hq, ?_⟩
      simp [questMatches, hsq]
  · rw [filter_quests, List.map_map]
    exact List.map_congr_left (fun a _ => rfl)

/-- Witness for C8 at a concrete input: the one-character token `"1"`
selects the quest with id `"102"`. -/
theorem claim_C8_witness :
    (⟨"102", 7, 0, 0⟩ : Quest) ∈
      selectQuests [⟨"001", 5, 0, 0⟩, ⟨"102", 7, 0, 0⟩] ["1"] :=
  (claim_C8 [⟨"001", 5, 0, 0⟩, ⟨"102", 7, 0, 0⟩] ["1"] []).2.2.1 "1"
    ⟨"102", 7, 0, 0⟩ (by decide) (by decide)
    ⟨'1', ['0', '2'], by decide, by decide⟩

/-- C10: a zero multiplier matching a quest at the exact-id level is
skipped (resolution continues with area, then section, then the default);
the resolved coefficient is never 0; with only zero multipliers supplied
the effective AP equals the base AP; and, under unique keys, the source's
resolution agrees with strict first-match resolution over the map with its
zero entries removed. -/
theorem claim_C10 (coefs : List (String × ℚ)) (q : Quest) :
    (dictGet coefs q.id = some 0 →
      apCoefficient coefs q =
        pyOrFloat (dictGet coefs (get_area q))
          (pyOrFloat (dictGet coefs (get_section q)) 1)) ∧
    apCoefficient coefs q ≠ 0 ∧
    ((∀ kv ∈ coefs, kv.2 = 0) → (annotateAp coefs q).ap = q.ap) ∧
    ((coefs.map Prod.fst).Nodup →
      apCoefficient coefs q =
        resolveCoef (coefs.filter (fun kv => decide (kv.2 ≠ 0))) q) := by
  refine ⟨?_, ?_, ?_, ?_⟩
  · intro h
    unfold apCoefficient
    rw [h]
    simp [pyOrFloat]
  · exact pyOrFloat_ne_zero (pyOrFloat_ne_zero (pyOrFloat_ne_zero one_ne_zero))
  · intro hz
    have hall : ∀ k, dictGet coefs k = none ∨ dictGet coefs k = some 0 := by
      intro k
      cases h : dictGet coefs k with
      | none => exact Or.inl rfl
      | some v =>
        have hv : v = 0 := hz _ (dictGet_mem h)
        exact Or.inr (by rw [hv])
    have h1 : apCoefficient coefs q = 1 := by
      unfold apCoefficient
      rcases hall q.id with h | h <;> rcases hall (get_area q) with h2 | h2 <;>
        rcases hall (get_section q) with h3 | h3 <;> simp [h, h2, h3, pyOrFloat]
    unfold annotateAp
    simp only [h1, mul_one, Int.floor_intCast]
  · intro hnd
    have lvl : ∀ (k : String) (y : ℚ), pyOrFloat (dictGet coefs k) y =
        (match dictGet (coefs.filter (fun kv => decide (kv.2 ≠ 0))) k with
         | some v => v
         | none => y) := by
      intro k y
      rw [dictGet_filter_ne_zero coefs k hnd]
      cases h : dictGet coefs k with
      | none => simp [pyOrFloat]
      | some v =>
        by_cases hv : v = 0 <;> simp [pyOrFloat, hv]
    unfold apCoefficient resolveCoef
    rw [lvl, lvl, lvl]

/-- Witness for C10 at a concrete input: the only supplied multiplier is
the zero at the quest's exact id, so the effective AP stays at the base
value 7. -/
theorem claim_C10_witness :
    (annotateAp [("001", 0)] ⟨"001", 7, 0, 0⟩).ap = (7 : ℤ) :=
  (claim_C10 [("001", 0)] ⟨"001", 7, 0, 0⟩).2.2.1 (by simp)

/-! ### Model-builder lemmas -/

theorem dictSet_mem {α : Type} {d : List (String × α)} {k : String} {v : α}
    {p : String × α} (hp : p ∈ dictSet d k v) : p ∈ d ∨ p = (k, v) := by
  unfold dictSet at hp
  by_cases h : d.any (fun q => q.1 == k)
  · rw [if_pos h] at hp
    obtain ⟨q, hq, hqe⟩ := List.mem_map.mp hp
    by_cases hqk : (q.1 == k) = true
    · right
      rw [if_pos hqk] at hqe
      exact hqe.symm
    · left
      rw [if_neg hqk] at hqe
      rw [← hqe]
      exact hq
  · rw [if_neg h] at hp
    rcases List.mem_append.mp hp with h' | h'
    · exact Or.inl h'
    · exact Or.inr (List.mem_singleton.mp h')

theorem foldl_dictSet_mem (rows : List MergedRow) (d : List (String × ℚ))
    (p : String × ℚ)
    (hp : p ∈ rows.foldl (fun d r => dictSet d r.quest_id r.drop_rate) d) :
    p ∈ d ∨ ∃ r ∈ rows, r.quest_id = p.1 ∧ r.drop_rate = p.2 := by
  induction rows generalizing d with
  | nil => exact Or.inl hp
  | cons r rest ih =>
    rcases ih _ hp with h | h
    · rcases dictSet_mem h with h' | h'
      · exact Or.inl h'
      · right
        exact ⟨r, List.mem_cons_self r rest, by rw [h'], by rw [h']⟩
    · right
      obtain ⟨r', hr', h1, h2⟩ := h
      exact ⟨r', List.mem_cons_of_mem r hr', h1, h2⟩

/-- Every coefficient of the dict built for one item's expression is the
merged rate of one of the item's rows. -/
theorem buildCoeffs_mem {rows : List MergedRow} {p : String × ℚ}
    (hp : p ∈ buildCoeffs rows) :
    ∃ r ∈ rows, r.quest_id = p.1 ∧ r.drop_rate = p.2 := by
  rcases foldl_dictSet_mem rows [] p hp with h | h
  · cases h
  · exact h

theorem foldl_add_nonpos (coeffs : List (String × ℚ)) (laps : String → ℚ)
    (hc : ∀ p ∈ coeffs, p.2 ≤ 0) (hl : ∀ s, 0 ≤ laps s) :
    ∀ acc : ℚ, acc ≤ 0 → coeffs.foldl (fun a p => a + p.2 * laps p.1) acc ≤ 0 := by
  induction coeffs with
  | nil =>
    intro acc h
    simpa using h
  | cons p rest ih =>
    intro acc hacc
    simp only [List.foldl_cons]
    apply ih (fun q hq => hc q (List.mem_cons_of_mem _ hq))
    have hp2 : p.2 * laps p.1 ≤ 0 :=
      mul_nonpos_iff.mpr (Or.inr ⟨hc p (List.mem_cons_self p rest), hl p.1⟩)
    linarith

/-- C1 counterexample: the target map requests 5 of item `"X"` (a positive
count), the only merged drop-rate row belongs to item `"Y"`, so no quest
has a positive rate for `"X"` — yet the built model contains no constraint
at all, in particular none for `"X"`: the requested item is silently
dropped rather than made infeasible. -/
theorem claim_C1_counterexample :
    buildConstraints [("X", 5)] [⟨"001", "Y", 1 / 2⟩] = [] := by decide

/-- C1 (amended): when the target map requests `ci > 0` of item `i`, at
least one merged drop-rate row for `i` exists among the selected quests,
and none of `i`'s rows has a positive rate, the built model contains a
constraint for `i` that no non-negative lap assignment satisfies (the model
is infeasible).  Without any row for `i` no constraint is created. -/
theorem claim_C1_amended (param_items : List (String × ℤ)) (rows : List MergedRow)
    (i : String) (ci : ℤ) (hci : dictGet param_items i = some ci) (hpos : 0 < ci)
    (hrow : ∃ r ∈ rows, r.item_id = i)
    (hnopos : ∀ r ∈ rows, r.item_id = i → r.drop_rate ≤ 0) :
    ∃ con ∈ buildConstraints param_items rows,
      con.item = i ∧ con.rhs = ci ∧ infeasibleGE con := by
  obtain ⟨r0, hr0, hr0i⟩ := hrow
  have hidedup : i ∈ (rows.map MergedRow.item_id).dedup :=
    List.mem_dedup.mpr (List.mem_map.mpr ⟨r0, hr0, hr0i⟩)
  refine ⟨⟨i, buildCoeffs (rows.filter (fun r => r.item_id == i)), ci⟩,
    List.mem_filterMap.mpr ⟨i, hidedup, by rw [hci]⟩, rfl, rfl, ?_⟩
  intro laps hl hle
  have hcoe : ∀ p ∈ buildCoeffs (rows.filter (fun r => r.item_id == i)), p.2 ≤ 0 := by
    intro p hp
    obtain ⟨r, hr, h1, h2⟩ := buildCoeffs_mem hp
    have hrr := List.mem_filter.mp hr
    rw [← h2]
    exact hnopos r hrr.1 (by simpa using hrr.2)
  have hev : evalCoeffs (buildCoeffs (rows.filter (fun r => r.item_id == i))) laps ≤ 0 :=
    foldl_add_nonpos _ laps hcoe hl 0 le_rfl
  have hci' : (0 : ℚ) < (ci : ℚ) := by exact_mod_cast hpos
  rw [evalCoeffs] at hev
  rw [evalCoeffs] at hle
  dsimp only at hle
  linarith

/-- Witness for the amended C1 at a concrete input: target 5 of `"X"`, one
row for `"X"` with merged rate 0, so the model holds the unsatisfiable
constraint `0 ≥ 5`. -/
theorem claim_C1_witness :
    ∃ con ∈ buildConstraints [("X", (5 : ℤ))] [⟨"001", "X", 0⟩],
      con.item = "X" ∧ con.rhs = 5 ∧ infeasibleGE con :=
  claim_C1_amended [("X", 5)] [⟨"001", "X", 0⟩] "X" 5 (by decide) (by decide)
    ⟨⟨"001", "X", 0⟩, List.mem_singleton.mpr rfl, rfl⟩
    (by
      intro r hr _
      rw [List.mem_singleton] at hr
      rw [hr])

/-- C4: under merge method `"add"` every merged row's rate is the
sample-weighted average of the two waves of its source row when the quest's
total sample count is positive, and 0 when both sample counts are zero;
in particular with sample counts `(10, 0)` and rates `(1/2, x)` the merged
rate is `1/2` for every `x`. -/
theorem claim_C4 :
    (∀ (rows : List DropRateRow) (quests : List Quest) (r : MergedRow),
      r ∈ merge_drop_rates rows quests "add" →
      ∃ row, row ∈ rows ∧ r.quest_id = row.quest_id ∧ r.item_id = row.item_id ∧
        (0 < questSamples1 quests row.quest_id + questSamples2 quests row.quest_id →
          r.drop_rate = (row.drop_rate_1 * questSamples1 quests row.quest_id +
              row.drop_rate_2 * questSamples2 quests row.quest_id) /
            ((questSamples1 quests row.quest_id : ℚ) + (questSamples2 quests row.quest_id : ℚ))) ∧
        (questSamples1 quests row.quest_id = 0 → questSamples2 quests row.quest_id = 0 →
          r.drop_rate = 0)) ∧
    (∀ (x : ℚ) (quests : List Quest) (row : DropRateRow),
      questSamples1 quests row.quest_id = 10 → questSamples2 quests row.quest_id = 0 →
      row.drop_rate_1 = 1 / 2 → row.drop_rate_2 = x →
      (merge_drop_rates [row] quests "add").map MergedRow.drop_rate = [1 / 2]) := by
  constructor
  · intro rows quests r hr
    rw [merge_drop_rates, if_pos rfl] at hr
    obtain ⟨row, hrow, hEq⟩ := List.mem_map.mp hr
    subst hEq
    refine ⟨row, hrow, rfl, rfl, ?_, ?_⟩
    · intro hpos
      dsimp only
      rw [if_pos]
      omega
    · intro h1 h2
      dsimp only
      rw [if_neg]
      simp [h1, h2]
  · intro x quests row h1 h2 hd1 hd2
    rw [merge_drop_rates, if_pos rfl]
    dsimp only [List.map_map, List.map_cons, List.map_nil, Function.comp]
    rw [h1, h2, hd1, hd2]
    norm_num

/-- Witness for C4 at a concrete input: sample counts `(10, 0)`, rates
`(1/2, 37)` merge to `1/2`. -/
theorem claim_C4_witness :
    (merge_drop_rates [⟨"q", "i", 1 / 2, 37⟩] [⟨"q", 20, 10, 0⟩] "add").map
      MergedRow.drop_rate = [1 / 2] :=
  claim_C4.2 37 [⟨"q", 20, 10, 0⟩] ⟨"q", "i", 1 / 2, 37⟩ (by decide) (by decide) rfl rfl

/-- C7: under merge method `"1"` (resp. `"2"`) every merged row's rate is
the chosen wave's rate when that rate is non-zero, and the other wave's
rate otherwise. -/
theorem claim_C7 :
    (∀ (rows : List DropRateRow) (quests : List Quest) (r : MergedRow),
      r ∈ merge_drop_rates rows quests "1" →
      ∃ row, row ∈ rows ∧ r.quest_id = row.quest_id ∧ r.item_id = row.item_id ∧
        r.drop_rate = (if row.drop_rate_1 = 0 then row.drop_rate_2 else row.drop_rate_1)) ∧
    (∀ (rows : List DropRateRow) (quests : List Quest) (r : MergedRow),
      r ∈ merge_drop_rates rows quests "2" →
      ∃ row, row ∈ rows ∧ r.quest_id = row.quest_id ∧ r.item_id = row.item_id ∧
        r.drop_rate = (if row.drop_rate_2 = 0 then row.drop_rate_1 else row.drop_rate_2)) := by
  constructor
  · intro rows quests r hr
    rw [merge_drop_rates, if_neg (by decide : ¬ ("1" : String) = "add")] at hr
    obtain ⟨row, hrow, hEq⟩ := List.mem_map.mp hr
    subst hEq
    exact ⟨row, hrow, rfl, rfl, by norm_num [show ("1" : String) ≠ "2" from by decide]⟩
  · intro rows quests r hr
    rw [merge_drop_rates, if_neg (by decide : ¬ ("2" : String) = "add")] at hr
    obtain ⟨row, hrow, hEq⟩ := List.mem_map.mp hr
    subst hEq
    exact ⟨row, hrow, rfl, rfl, by norm_num [show ("2" : String) ≠ "1" from by decide]⟩

/-- Witness for C7 at a concrete input: method `"1"` with a zero wave-1
rate falls back to the wave-2 rate `3/10`. -/
theorem claim_C7_witness :
    ∃ row, row ∈ ([⟨"q", "i", 0, 3 / 10⟩] : List DropRateRow) ∧
      (⟨"q", "i", 3 / 10⟩ : MergedRow).quest_id = row.quest_id ∧
      (⟨"q", "i", 3 / 10⟩ : MergedRow).item_id = row.item_id ∧
      (⟨"q", "i", 3 / 10⟩ : MergedRow).drop_rate =
        (if row.drop_rate_1 = 0 then row.drop_rate_2 else row.drop_rate_1) :=
  claim_C7.1 [⟨"q", "i", 0, 3 / 10⟩] [⟨"q", 20, 10, 0⟩] ⟨"q", "i", 3 / 10⟩
    (by
      rw [merge_drop_rates, if_neg (by decide : ¬ ("1" : String) = "add")]
      norm_num [show ("1" : String) ≠ "2" from by decide])

/-! ## Projection theorem (C6) -/

/-- C6 (code bug): on an aggregated plan — whose `quests` and `items`
sections are *lists* of row objects, as built by `format_result` — asking
for the `quests` section together with a per-quest field allow-list makes
`filter_result` call `.items()` on a list, which raises `AttributeError`
instead of projecting.  The projection is therefore not total, let alone
idempotent, whenever `fields` and `quest_fields` (or `item_fields`) are
both non-empty. -/
theorem claim_C6_code_bug :
    filter_result
      [("quests", Py.list []), ("items", Py.list []),
       ("total_lap", Py.int 0), ("total_ap", Py.int 0)]
      ["quests"] ["id"] [] =
    Except.error "AttributeError: object has no attribute items" := rfl

/-! ## Normalization theorems (C3) -/

theorem splitPair_malformed {tok : String} (h : tokenMalformed tok = true) :
    ∃ m, splitPair tok = Except.error m := by
  unfold tokenMalformed at h
  unfold splitPair
  rcases hs : pySplit tok ':' with _ | ⟨a, _ | ⟨b, _ | ⟨c, l⟩⟩⟩ <;>
    rw [hs] at h <;> simp_all

theorem splitPair_wellformed {tok : String} (h : tokenMalformed tok = false) :
    ∃ kv, splitPair tok = Except.ok kv := by
  unfold tokenMalformed at h
  unfold splitPair
  rcases hs : pySplit tok ':' with _ | ⟨a, _ | ⟨b, _ | ⟨c, l⟩⟩⟩ <;>
    rw [hs] at h <;> simp_all

theorem foldPairs_error (toks : List String) (h : toks.any tokenMalformed = true) :
    ∀ d, ∃ m, foldPairs toks d = Except.error m := by
  induction toks with
  | nil => cases h
  | cons tok rest ih =>
    intro d
    rw [List.any_cons] at h
    by_cases ht : tokenMalformed tok = true
    · obtain ⟨m, hm⟩ := splitPair_malformed ht
      exact ⟨m, by rw [foldPairs, hm]⟩
    · have hrest : rest.any tokenMalformed = true := by
        rcases Bool.or_eq_true_iff.mp h with h' | h'
        · exact absurd h' ht
        · exact h'
      obtain ⟨kv, hkv⟩ := splitPair_wellformed (by simpa using ht)
      obtain ⟨m, hm⟩ := ih hrest (dictSet d kv.1 kv.2)
      exact ⟨m, by rw [foldPairs, hkv]; exact hm⟩

theorem foldPairs_ok (toks : List String) (h : toks.any tokenMalformed = false) :
    ∀ d, ∃ r, foldPairs toks d = Except.ok r := by
  induction toks with
  | nil => exact fun d => ⟨d, rfl⟩
  | cons tok rest ih =>
    intro d
    rw [List.any_cons, Bool.or_eq_false_iff] at h
    obtain ⟨kv, hkv⟩ := splitPair_wellformed h.1
    obtain ⟨r, hr⟩ := ih h.2 (dictSet d kv.1 kv.2)
    exact ⟨r, by rw [foldPairs, hkv]; exact hr⟩

theorem decodePairs_error {v : Option String} (h : hasMalformedPairs v = true) :
    ∃ m, decodePairs v = Except.error m := by
  cases v with
  | none => simp [hasMalformedPairs] at h
  | some s =>
    simp only [hasMalformedPairs] at h
    simp only [decodePairs]
    by_cases hs : s = ""
    · rw [if_pos hs] at h
      cases h
    · rw [if_neg hs] at h ⊢
      exact foldPairs_error _ h []

theorem decodePairs_ok {v : Option String} (h : hasMalformedPairs v = false) :
    ∃ r, decodePairs v = Except.ok r := by
  cases v with
  | none => exact ⟨[], rfl⟩
  | some s =>
    simp only [hasMalformedPairs] at h
    simp only [decodePairs]
    by_cases hs : s = ""
    · rw [if_pos hs]
      exact ⟨[], rfl⟩
    · rw [if_neg hs] at h ⊢
      exact foldPairs_ok _ h []

theorem pairsOf_eq {v : Option String} {r : List (String × String)}
    (h : decodePairs v = Except.ok r) : pairsOf v = r := by
  unfold pairsOf
  rw [h]
  rfl

theorem formatVals_error {α : Type} (d : List (String × String))
    (f : String → Option α) (key : String)
    (h : d.any (fun kv => (f kv.2).isNone) = true) :
    formatVals d f key = Except.error (NormError.invalidParam
      ("Numbers of " ++ key ++ " is invalid") key
      "must be like string:number,string:number,...") := by
  induction d with
  | nil => cases h
  | cons kv rest ih =>
    rw [List.any_cons] at h
    cases hf : f kv.2 with
    | none => rw [formatVals, hf]
    | some x =>
      have hrest : rest.any (fun kv => (f kv.2).isNone) = true := by
        rcases Bool.or_eq_true_iff.mp h with h' | h'
        · rw [hf] at h'
          cases h'
        · exact h'
      rw [formatVals, hf, ih hrest]

theorem formatVals_ok {α : Type} (d : List (String × String))
    (f : String → Option α) (key : String)
    (h : d.any (fun kv => (f kv.2).isNone) = false) :
    ∃ r, formatVals d f key = Except.ok r := by
  induction d with
  | nil => exact ⟨[], rfl⟩
  | cons kv rest ih =>
    rw [List.any_cons, Bool.or_eq_false_iff] at h
    cases hf : f kv.2 with
    | none =>
      rw [hf] at h
      cases h.1
    | some x =>
      obtain ⟨r, hr⟩ := ih h.2
      exact ⟨(kv.1, x) :: r, by rw [formatVals, hf, hr]⟩

theorem decode_params_items_error (q : RawQuery) (m : String)
    (h : decodePairs q.items = Except.error m) :
    decode_params q = Except.error (NormError.uncaught m) := by
  unfold decode_params
  rw [h]
  rfl

theorem decode_params_coefs_error (q : RawQuery) (i : List (String × String))
    (m : String) (hi : decodePairs q.items = Except.ok i)
    (h : decodePairs q.ap_coefficients = Except.error m) :
    decode_params q = Except.error (NormError.uncaught m) := by
  unfold decode_params
  rw [hi, h]
  rfl

/-- The record produced by a successful `decode_params` run. -/
def mkDecoded (q : RawQuery) (i c : List (String × String)) : DecodedParams :=
  { fields := decodeList q.fields, quest_fields := decodeList q.quest_fields,
    item_fields := decodeList q.item_fields,
    objective := decodeStr q.objective "ap", items := i,
    quests := decodeList q.quests, ap_coefficients := c,
    drop_merge_method := decodeStr q.drop_merge_method "add" }

theorem decode_params_ok (q : RawQuery) (i c : List (String × String))
    (hi : decodePairs q.items = Except.ok i)
    (hc : decodePairs q.ap_coefficients = Except.ok c) :
    decode_params q = Except.ok (mkDecoded q i c) := by
  unfold decode_params mkDecoded
  rw [hi, hc]
  rfl

theorem normalizeParams_decode_error (q : RawQuery) (intF : String → Option ℤ)
    (floatF : String → Option ℚ) (e : NormError)
    (h : decode_params q = Except.error e) :
    normalizeParams q intF floatF = Except.error e := by
  unfold normalizeParams
  rw [h]
  rfl

theorem normalizeParams_decode_ok (q : RawQuery) (intF : String → Option ℤ)
    (floatF : String → Option ℚ) (p : DecodedParams)
    (h : decode_params q = Except.ok p) :
    normalizeParams q intF floatF =
      (validate_params p).bind (fun _ => format_params p intF floatF) := by
  unfold normalizeParams
  rw [h]
  rfl

theorem validate_params_ok (p : DecodedParams)
    (h1 : p.objective = "ap" ∨ p.objective = "lap")
    (h2 : p.drop_merge_method = "add" ∨ p.drop_merge_method = "1" ∨
      p.drop_merge_method = "2") :
    validate_params p = Except.ok () := by
  rw [validate_params, if_pos h1, if_pos h2]

theorem validate_params_error (p : DecodedParams)
    (h : ¬(p.objective = "ap" ∨ p.objective = "lap") ∨
      ¬(p.drop_merge_method = "add" ∨ p.drop_merge_method = "1" ∨
        p.drop_merge_method = "2")) :
    ∃ msg nm rsn, validate_params p =
      Except.error (NormError.invalidParam msg nm rsn) := by
  rw [validate_params]
  by_cases h1 : p.objective = "ap" ∨ p.objective = "lap"
  · rcases h with h | h
    · exact absurd h1 h
    · rw [if_pos h1, if_neg h]
      exact ⟨_, _, _, rfl⟩
  · rw [if_neg h1]
    exact ⟨_, _, _, rfl⟩

theorem format_params_ok (p : DecodedParams) (intF : String → Option ℤ)
    (floatF : String → Option ℚ)
    (hi : p.items.any (fun kv => (intF kv.2).isNone) = false)
    (hc : p.ap_coefficients.any (fun kv => (floatF kv.2).isNone) = false) :
    ∃ r, format_params p intF floatF = Except.ok r := by
  obtain ⟨ri, hri⟩ := formatVals_ok p.items intF "items" hi
  obtain ⟨rc, hrc⟩ := formatVals_ok p.ap_coefficients floatF "ap_coefficients" hc
  refine ⟨⟨p.fields, p.quest_fields, p.item_fields, p.objective, ri, p.quests,
    rc, p.drop_merge_method⟩, ?_⟩
  unfold format_params
  rw [hri, hrc]
  rfl

theorem format_params_error (p : DecodedParams) (intF : String → Option ℤ)
    (floatF : String → Option ℚ)
    (h : p.items.any (fun kv => (intF kv.2).isNone) = true ∨
      p.ap_coefficients.any (fun kv => (floatF kv.2).isNone) = true) :
    ∃ msg nm rsn, format_params p intF floatF =
      Except.error (NormError.invalidParam msg nm rsn) := by
  by_cases hi : p.items.any (fun kv => (intF kv.2).isNone) = true
  · refine ⟨"Numbers of " ++ "items" ++ " is invalid", "items",
      "must be like string:number,string:number,...", ?_⟩
    unfold format_params
    rw [formatVals_error p.items intF "items" hi]
    rfl
  · have hc : p.ap_coefficients.any (fun kv => (floatF kv.2).isNone) = true :=
      h.resolve_left hi
    obtain ⟨ri, hri⟩ := formatVals_ok p.items intF "items" (by simpa using hi)
    refine ⟨"Numbers of " ++ "ap_coefficients" ++ " is invalid", "ap_coefficients",
      "must be like string:number,string:number,...", ?_⟩
    unfold format_params
    rw [hri, formatVals_error p.ap_coefficients floatF "ap_coefficients" hc]
    rfl

theorem badEnum_iff (q : RawQuery) : badEnum q = true ↔
    (¬(decodeStr q.objective "ap" = "ap" ∨ decodeStr q.objective "ap" = "lap") ∨
     ¬(decodeStr q.drop_merge_method "add" = "add" ∨
       decodeStr q.drop_merge_method "add" = "1" ∨
       decodeStr q.drop_merge_method "add" = "2")) := by
  simp [badEnum, not_or]
  tauto

/-- C3 counterexample: the raw request `items=abc` contains a `key:value`
pair without a colon.  The claim says normalization fails with a
`ParameterError`; the code instead raises an uncaught `ValueError` inside
`decode_params`, which runs outside the handler's `try` block (a crash, not
a 400 response). -/
theorem claim_C3_counterexample :
    hasMalformedPairs (RawQuery.mk none none none none (some "abc") none none none).items = true ∧
    isParamFailure (normalizeParams
      (RawQuery.mk none none none none (some "abc") none none none)
      (fun _ => some 0) (fun _ => some 0)) = false ∧
    isUncaughtFailure (normalizeParams
      (RawQuery.mk none none none none (some "abc") none none none)
      (fun _ => some 0) (fun _ => some 0)) = true := by decide

/-- C3 (amended): normalization raises an *uncaught* decode error exactly
when `items` or `ap_coefficients` contains a malformed `key:value` pair;
otherwise it fails with a `ParameterError` exactly when an enumerated field
(`objective`, `drop_merge_method`) is outside its enumeration or some
`items`/`ap_coefficients` value is rejected by the respective numeric
parser (Python `int`/`float`, which also accept negative numbers, so
non-negativity is not enforced); on every other input it succeeds. -/
theorem claim_C3_amended (q : RawQuery) (intF : String → Option ℤ)
    (floatF : String → Option ℚ) :
    (isUncaughtFailure (normalizeParams q intF floatF) =
      (hasMalformedPairs q.items || hasMalformedPairs q.ap_coefficients)) ∧
    (isParamFailure (normalizeParams q intF floatF) =
      (!(hasMalformedPairs q.items || hasMalformedPairs q.ap_coefficients) &&
        (badEnum q || badNumbers q intF floatF))) ∧
    (isOkResult (normalizeParams q intF floatF) =
      (!(hasMalformedPairs q.items || hasMalformedPairs q.ap_coefficients) &&
        !badEnum q && !badNumbers q intF floatF)) := by
  by_cases hmi : hasMalformedPairs q.items = true
  · obtain ⟨m, hm⟩ := decodePairs_error hmi
    rw [normalizeParams_decode_error q intF floatF _
      (decode_params_items_error q m hm)]
    simp [isUncaughtFailure, isParamFailure, isOkResult, hmi]
  · have hmi' : hasMalformedPairs q.items = false := by simpa using hmi
    obtain ⟨i, hi⟩ := decodePairs_ok hmi'
    by_cases hmc : hasMalformedPairs q.ap_coefficients = true
    · obtain ⟨m, hm⟩ := decodePairs_error hmc
      rw [normalizeParams_decode_error q intF floatF _
        (decode_params_coefs_error q i m hi hm)]
      simp [isUncaughtFailure, isParamFailure, isOkResult, hmi', hmc]
    · have hmc' : hasMalformedPairs q.ap_coefficients = false := by simpa using hmc
      obtain ⟨c, hc⟩ := decodePairs_ok hmc'
      rw [normalizeParams_decode_ok q intF floatF (mkDecoded q i c)
        (decode_params_ok q i c hi hc)]
      have hpi : pairsOf q.items = i := pairsOf_eq hi
      have hpc : pairsOf q.ap_coefficients = c := pairsOf_eq hc
      by_cases he : badEnum q = true
      · obtain ⟨msg, nm, rsn, hv⟩ :=
          validate_params_error (mkDecoded q i c) ((badEnum_iff q).mp he)
        rw [hv]
        simp [isUncaughtFailure, isParamFailure, isOkResult, hmi', hmc', he,
          Except.bind]
      · have he' : badEnum q = false := by simpa using he
        have hens := (badEnum_iff q).not.mp (by simp [he'])
        push_neg at hens
        rw [validate_params_ok (mkDecoded q i c) hens.1 hens.2]
        by_cases hb : badNumbers q intF floatF = true
        · have hb' : i.any (fun kv => (intF kv.2).isNone) = true ∨
              c.any (fun kv => (floatF kv.2).isNone) = true := by
            have := hb
            rw [badNumbers, hpi, hpc] at this
            simpa using this
          obtain ⟨msg, nm, rsn, hf⟩ :=
            format_params_error (mkDecoded q i c) intF floatF hb'
          rw [Except.bind, hf]
          simp [isUncaughtFailure, isParamFailure, isOkResult, hmi', hmc', he', hb]
        · have hb2 : badNumbers q intF floatF = false := by simpa using hb
          have hb3 := hb2
          rw [badNumbers, hpi, hpc] at hb3
          rw [Bool.or_eq_false_iff] at hb3
          obtain ⟨r, hf⟩ := format_params_ok (mkDecoded q i c) intF floatF hb3.1 hb3.2
          rw [Except.bind, hf]
          simp [isUncaughtFailure, isParamFailure, isOkResult, hmi', hmc', he', hb2]

end FgoSolver
